import Mathlib

/-!
Shallow embedding of the ffmpeg-minio-solutions browser pipeline:
the ffmpeg-core asset cache (Cache Storage wrapper), the scale-filter
derivation and job handling of the dedicated FFmpeg Web Worker, the
foreground hook (bridge) that demultiplexes worker events, and the
recorder capture-session state machine.  Asynchronous platform calls
(fetch, ffmpeg.load/exec/readFile, MediaRecorder) are modelled by
explicit outcome parameters; each JS event-loop turn is one atomic step.
-/

namespace FfmpegMinio

/-! ### Config constants (ffmpegCoreConfig.ts) -/

def FFMPEG_CORE_VERSION : String := "0.12.10"

def FFMPEG_CORE_BASE : String :=
  "https://cdn.jsdelivr.net/npm/@ffmpeg/core@" ++ FFMPEG_CORE_VERSION ++ "/dist/umd"

def CORE_JS_URL : String := FFMPEG_CORE_BASE ++ "/ffmpeg-core.js"

def CORE_WASM_URL : String := FFMPEG_CORE_BASE ++ "/ffmpeg-core.wasm"

def FFMPEG_CACHE_NAME : String := "ffmpeg-core-cache-v1"

/-! ### Asset cache (FfmpegCacheManager companion module `ffmpegCache.ts`) -/

/-- Raw bytes of a fetched or cached body. -/
abbrev BinaryData := List Nat

/-- A `fetch` response: HTTP status plus body. -/
structure FetchResponse where
  status : Nat
  body : BinaryData
deriving Repr, DecidableEq

/-- `Response.ok`: status in the 200–299 range. -/
def FetchResponse.isOk (r : FetchResponse) : Bool :=
  200 ≤ r.status && r.status < 300

/-- One Cache Storage bucket: entries keyed by request URL. -/
abbrev CacheBucket := List (String × BinaryData)

/-- `cache.match(url)`. -/
def cacheMatch (bucket : CacheBucket) (url : String) : Option BinaryData :=
  (bucket.find? (fun e => e.1 == url)).map (fun e => e.2)

/-- `cache.put(url, body)`: replaces any previous entry for `url`. -/
def cachePut (bucket : CacheBucket) (url : String) (body : BinaryData) : CacheBucket :=
  (url, body) :: bucket.filter (fun e => e.1 != url)

/-- The whole Cache Storage: named buckets. -/
abbrev CacheStorage := List (String × CacheBucket)

/-- `caches.open(name)` (reading side: missing bucket behaves as empty). -/
def storageOpen (cs : CacheStorage) (name : String) : CacheBucket :=
  ((cs.find? (fun e => e.1 == name)).map (fun e => e.2)).getD []

/-- Store a bucket back under its name. -/
def storageSetBucket (cs : CacheStorage) (name : String) (b : CacheBucket) : CacheStorage :=
  (name, b) :: cs.filter (fun e => e.1 != name)

/-- `caches.delete(name)`. -/
def storageDelete (cs : CacheStorage) (name : String) : CacheStorage :=
  cs.filter (fun e => e.1 != name)

/-- Ambient browser facts the cache module consults: whether `window.caches`
exists, and what the two asset fetches would return. -/
structure BrowserEnv where
  cachesAvailable : Bool
  jsResponse : FetchResponse
  wasmResponse : FetchResponse
deriving Repr, DecidableEq

/-- `isCoreCached()`: false when Cache Storage is unavailable, else true
iff both asset URLs have entries.  Returns in `Except` to record that the
function never throws. -/
def isCoreCached (env : BrowserEnv) (cs : CacheStorage) : Except String Bool :=
  if !env.cachesAvailable then .ok false
  else
    let cache := storageOpen cs FFMPEG_CACHE_NAME
    let jsRes := cacheMatch cache CORE_JS_URL
    let wasmRes := cacheMatch cache CORE_WASM_URL
    .ok (jsRes.isSome && wasmRes.isSome)

/-- `cacheCoreAssets()` (warm): throws when Cache Storage is unavailable;
fetches both assets; throws with the HTTP status embedded when either
response is not ok (storing nothing); otherwise puts both bodies under
their URL keys. -/
def cacheCoreAssets (env : BrowserEnv) (cs : CacheStorage) : Except String CacheStorage :=
  if !env.cachesAvailable then
    .error "Cache Storage API is not available in this environment"
  else
    let cache := storageOpen cs FFMPEG_CACHE_NAME
    if !env.jsResponse.isOk then
      .error ("Failed to fetch ffmpeg-core.js: " ++ toString env.jsResponse.status)
    else if !env.wasmResponse.isOk then
      .error ("Failed to fetch ffmpeg-core.wasm: " ++ toString env.wasmResponse.status)
    else
      let cache1 := cachePut cache CORE_JS_URL env.jsResponse.body
      let cache2 := cachePut cache1 CORE_WASM_URL env.wasmResponse.body
      .ok (storageSetBucket cs FFMPEG_CACHE_NAME cache2)

/-- `clearCoreCache()`: deletes the bucket; silently no-ops outside a browser. -/
def clearCoreCache (env : BrowserEnv) (cs : CacheStorage) : CacheStorage :=
  if !env.cachesAvailable then cs
  else storageDelete cs FFMPEG_CACHE_NAME

/-! ### Worker messages (workerMessages.ts) and the scale filter -/

/-- JS truthiness of an optional number: `undefined` and `0` are falsy. -/
def jsTruthy : Option Int → Bool
  | none => false
  | some n => n != 0

/-- Template-literal rendering of an optional number inside a truthy branch. -/
def numText : Option Int → String
  | none => "undefined"
  | some n => toString n

/-- The `{ width?, height? }` options record of `scaleFilter`. -/
structure ScaleOpts where
  width : Option Int
  height : Option Int
deriving Repr, DecidableEq

/-- `scaleFilter` from ffmpegWorker.ts: pushes at most one `scale=` term
(the three truthiness guards are mutually exclusive) and wraps a non-empty
list as a `-vf` argument pair. -/
def scaleFilter (opts : ScaleOpts) : List String :=
  let vf : List String :=
    (if jsTruthy opts.height && !jsTruthy opts.width then
      ["scale=-2:" ++ numText opts.height] else []) ++
    (if jsTruthy opts.width && !jsTruthy opts.height then
      ["scale=" ++ numText opts.width ++ ":-2"] else []) ++
    (if jsTruthy opts.width && jsTruthy opts.height then
      ["scale=" ++ numText opts.width ++ ":" ++ numText opts.height] else [])
  if vf.length != 0 then ["-vf", String.intercalate "," vf] else []

/-- `PreviewParams` (optional fields stay `Option`; defaults are applied
at use sites, as in the source). -/
structure PreviewParams where
  data : BinaryData
  inputName : Option String
  start : Option ℚ
  duration : Option ℚ
  scaleHeight : Option Int
  scaleWidth : Option Int
  toMp4 : Option Bool
  crf : Option Int
  preset : Option String
deriving Repr, DecidableEq

/-- `SnapshotParams` (`at` is a Lean keyword, rendered `atSec`). -/
structure SnapshotParams where
  data : BinaryData
  inputName : Option String
  atSec : Option ℚ
  scaleWidth : Option Int
  scaleHeight : Option Int
  quality : Option Int
deriving Repr, DecidableEq

/-- Result kinds carried by `result` events. -/
inductive ResultKind
  | preview
  | snapshot
deriving Repr, DecidableEq

/-- `WorkerEvent`: messages from the worker to the main thread. -/
inductive WorkerEvent
  | loaded
  | progress (r : ℚ) (time : Option ℚ)
  | log (message : String)
  | result (kind : ResultKind) (name : String) (mime : String) (data : BinaryData)
  | error (message : String)
  | canceled
  | terminated
deriving Repr, DecidableEq

/-- `WorkerCommand`: messages from the main thread to the worker. -/
inductive WorkerCommand
  | load (coreURL wasmURL : Option String)
  | preview (payload : PreviewParams)
  | snapshot (payload : SnapshotParams)
  | cancel
  | terminate
deriving Repr, DecidableEq

/-! ### Worker-side state and job handling (ffmpegWorker.ts) -/

/-- Module-level mutable state of the worker: whether the `ffmpeg`
handle is non-null, the two reentrancy flags, and the virtual-FS file
names of the live engine instance. -/
structure WorkerState where
  ffmpegLoaded : Bool
  loading : Bool
  busy : Bool
  fs : List String
deriving Repr, DecidableEq

/-- `ffmpeg.writeFile`: the name becomes present in the virtual FS. -/
def fsWrite (fs : List String) (name : String) : List String :=
  if name ∈ fs then fs else name :: fs

/-- `ffmpeg.deleteFile` wrapped in `try {} catch {}`: removal that never
fails (absent names are a suppressed error). -/
def fsDelete (fs : List String) (name : String) : List String :=
  fs.filter (fun f => f != name)

/-- Outcome of the awaited engine pipeline of one job: `exec` and the
following `readFile` either succeed yielding the output bytes, or one of
them rejects (including the TypeError raised when a concurrent teardown
nulled the instance mid-job). -/
inductive ExecOutcome
  | success (out : BinaryData)
  | execFailure (msg : String)
  | readFailure (msg : String)
deriving Repr, DecidableEq

/-- Resolution of the awaited platform calls a command may perform. -/
structure EngineOracle where
  loadResult : Option String
  execResult : ExecOutcome
deriving Repr, DecidableEq

/-- `ensureLoaded`: returns immediately when an instance exists and no
load is in flight; otherwise creates the instance, short-circuits when a
load is already in flight, and awaits `ffmpeg.load` (on success clears
`loading` and emits `loaded`; on rejection `loading` stays set and the
error propagates to the caller).  Result: new state, emitted events,
propagated exception. -/
def ensureLoaded (s : WorkerState) (loadResult : Option String) :
    WorkerState × List WorkerEvent × Option String :=
  if s.ffmpegLoaded && !s.loading then (s, [], none)
  else
    let s1 : WorkerState :=
      if s.ffmpegLoaded then s else { s with ffmpegLoaded := true, fs := [] }
    if s1.loading then (s1, [], none)
    else
      match loadResult with
      | none => ({ s1 with loading := false }, [.loaded], none)
      | some m => ({ s1 with loading := true }, [], some m)

/-- Output file name chosen by `doPreview` (`toMp4 !== false`). -/
def previewOutName (p : PreviewParams) : String :=
  if p.toMp4 != some false then "preview.mp4" else "preview.webm"

/-- Argument list built by `doPreview`. -/
def previewArgs (p : PreviewParams) : List String :=
  let inputName := p.inputName.getD "input.webm"
  let start := toString (p.start.getD 0)
  let duration := toString (p.duration.getD 10)
  let vf := scaleFilter { width := p.scaleWidth, height := p.scaleHeight }
  if p.toMp4 != some false then
    ["-ss", start, "-t", duration, "-i", inputName] ++ vf ++
      ["-c:v", "libx264", "-preset", p.preset.getD "veryfast",
       "-crf", toString (p.crf.getD 28), "-pix_fmt", "yuv420p",
       "-c:a", "aac", "-b:a", "128k", "-movflags", "+faststart", "preview.mp4"]
  else
    ["-ss", start, "-t", duration, "-i", inputName] ++ vf ++
      ["-c", "copy", "preview.webm"]

/-- Argument list built by `doSnapshot`. -/
def snapshotArgs (p : SnapshotParams) : List String :=
  let inputName := p.inputName.getD "input.webm"
  let vf := scaleFilter { width := p.scaleWidth, height := p.scaleHeight }
  ["-ss", toString (p.atSec.getD 1), "-i", inputName, "-frames:v", "1",
   "-q:v", toString (p.quality.getD 2)] ++ vf ++ ["thumb.jpg"]

/-- `doPreview`: throws before touching `busy` when no instance exists;
otherwise sets `busy`, writes the input, runs the pipeline, posts the
`result` on success, and in the `finally` clause deletes both candidate
output names and the input (failures suppressed) and releases `busy`;
any exception propagates after the `finally` clause ran. -/
def doPreview (s : WorkerState) (p : PreviewParams) (oracle : EngineOracle) :
    WorkerState × List WorkerEvent × Option String :=
  if !s.ffmpegLoaded then (s, [], some "FFmpeg is not loaded")
  else
    let inputName := p.inputName.getD "input.webm"
    let outName := previewOutName p
    let s1 : WorkerState := { s with busy := true, fs := fsWrite s.fs inputName }
    let step : WorkerState × List WorkerEvent × Option String :=
      match oracle.execResult with
      | .execFailure m => (s1, [], some m)
      | .readFailure m => ({ s1 with fs := fsWrite s1.fs outName }, [], some m)
      | .success out =>
          ({ s1 with fs := fsWrite s1.fs outName },
           [WorkerEvent.result .preview outName
              (if outName.endsWith ".mp4" then "video/mp4" else "video/webm") out],
           none)
    let s2 := step.1
    ({ s2 with
        fs := fsDelete (fsDelete (fsDelete s2.fs "preview.mp4") "preview.webm") inputName,
        busy := false },
     step.2.1, step.2.2)

/-- `doSnapshot`: analogous single-frame job with fixed `thumb.jpg`
output and `image/jpeg` mime. -/
def doSnapshot (s : WorkerState) (p : SnapshotParams) (oracle : EngineOracle) :
    WorkerState × List WorkerEvent × Option String :=
  if !s.ffmpegLoaded then (s, [], some "FFmpeg is not loaded")
  else
    let inputName := p.inputName.getD "input.webm"
    let s1 : WorkerState := { s with busy := true, fs := fsWrite s.fs inputName }
    let step : WorkerState × List WorkerEvent × Option String :=
      match oracle.execResult with
      | .execFailure m => (s1, [], some m)
      | .readFailure m => ({ s1 with fs := fsWrite s1.fs "thumb.jpg" }, [], some m)
      | .success out =>
          ({ s1 with fs := fsWrite s1.fs "thumb.jpg" },
           [WorkerEvent.result .snapshot "thumb.jpg" "image/jpeg" out], none)
    let s2 := step.1
    ({ s2 with
        fs := fsDelete (fsDelete s2.fs "thumb.jpg") inputName,
        busy := false },
     step.2.1, step.2.2)

/-- `cancelCurrent`: no-op when no instance exists; otherwise terminates
the instance (its virtual FS disappears with it), clears both flags and
emits `canceled`. -/
def cancelCurrent (s : WorkerState) : WorkerState × List WorkerEvent :=
  if !s.ffmpegLoaded then (s, [])
  else ({ ffmpegLoaded := false, loading := false, busy := false, fs := [] },
        [.canceled])

/-- `self.onmessage`: dispatches one command; any exception escaping the
handlers is caught and posted as an `error` event. -/
def onmessage (s : WorkerState) (cmd : WorkerCommand) (oracle : EngineOracle) :
    WorkerState × List WorkerEvent :=
  let step : WorkerState × List WorkerEvent × Option String :=
    match cmd with
    | .load _ _ => ensureLoaded s oracle.loadResult
    | .preview p =>
        let el := ensureLoaded s oracle.loadResult
        match el.2.2 with
        | some m => (el.1, el.2.1, some m)
        | none =>
            if el.1.busy then (el.1, el.2.1, some "FFmpeg worker is busy")
            else
              let j := doPreview el.1 p oracle
              (j.1, el.2.1 ++ j.2.1, j.2.2)
    | .snapshot p =>
        let el := ensureLoaded s oracle.loadResult
        match el.2.2 with
        | some m => (el.1, el.2.1, some m)
        | none =>
            if el.1.busy then (el.1, el.2.1, some "FFmpeg worker is busy")
            else
              let j := doSnapshot el.1 p oracle
              (j.1, el.2.1 ++ j.2.1, j.2.2)
    | .cancel =>
        let c := cancelCurrent s
        (c.1, c.2, none)
    | .terminate =>
        let c := cancelCurrent s
        (c.1, c.2 ++ [.terminated], none)
  match step.2.2 with
  | some m => (step.1, step.2.1 ++ [.error m])
  | none => (step.1, step.2.1)

/-! ### Foreground bridge: the useFfmpegWorker hook -/

/-- Object URLs minted by `URL.createObjectURL`, identified by creation
order. -/
abbrev Url := Nat

/-- `WorkerStatus` of the hook state. -/
inductive WorkerStatus
  | idle
  | loading
  | ready
  | working
  | canceled
  | error
deriving Repr, DecidableEq

/-- `UseFfmpegWorkerState`: the React state object of the hook. -/
structure HookState where
  status : WorkerStatus
  progress : ℚ
  time : Option ℚ
  lastLog : Option String
  error : Option String
  previewUrl : Option Url
  snapshotUrl : Option Url
deriving Repr, DecidableEq

/-- The hook's surroundings: React state plus the two URL refs, the set
of minted-but-not-revoked object URLs tagged with the result kind that
minted each, and the fresh-URL counter. -/
structure BridgeState where
  hook : HookState
  previewUrlRef : Option Url
  snapshotUrlRef : Option Url
  liveUrls : List (Url × ResultKind)
  urlCounter : Nat
deriving Repr, DecidableEq

/-- Initial hook state: `{ status: "idle", progress: 0 }`. -/
def initialHookState : HookState :=
  { status := .idle, progress := 0, time := none, lastLog := none,
    error := none, previewUrl := none, snapshotUrl := none }

/-- Bridge state at mount: null refs, no live URLs. -/
def initialBridgeState : BridgeState :=
  { hook := initialHookState, previewUrlRef := none, snapshotUrlRef := none,
    liveUrls := [], urlCounter := 0 }

/-- `URL.revokeObjectURL(u)`: `u` stops being live. -/
def revokeObjectURL (b : BridgeState) (u : Url) : BridgeState :=
  { b with liveUrls := b.liveUrls.filter (fun e => e.1 != u) }

/-- The `w.onmessage` handler of the hook: demultiplexes one worker
event into the observable state.  A `result` event first mints a fresh
object URL for the blob, then revokes the previous reference of the same
kind (if any) and installs the new one; `terminated` replaces the whole
hook state with `{ status: "idle", progress: 0 }`. -/
def applyWorkerEvent (b : BridgeState) (ev : WorkerEvent) : BridgeState :=
  match ev with
  | .loaded => { b with hook := { b.hook with status := .ready } }
  | .progress r t => { b with hook := { b.hook with progress := r, time := t } }
  | .log m => { b with hook := { b.hook with lastLog := some m } }
  | .result kind _ _ _ =>
      let url := b.urlCounter
      let b1 : BridgeState :=
        { b with liveUrls := (url, kind) :: b.liveUrls, urlCounter := b.urlCounter + 1 }
      match kind with
      | .preview =>
          let b2 := match b1.previewUrlRef with
            | some old => revokeObjectURL b1 old
            | none => b1
          { b2 with
            previewUrlRef := some url,
            hook := { b2.hook with
                      status := .ready, progress := 1,
                      previewUrl := some url } }
      | .snapshot =>
          let b2 := match b1.snapshotUrlRef with
            | some old => revokeObjectURL b1 old
            | none => b1
          { b2 with
            snapshotUrlRef := some url,
            hook := { b2.hook with
                      status := .ready, progress := 1,
                      snapshotUrl := some url } }
  | .canceled => { b with hook := { b.hook with status := .canceled, progress := 0 } }
  | .terminated => { b with hook := initialHookState }
  | .error m => { b with hook := { b.hook with status := .error, error := some m } }

/-- Fold a stream of worker events from the mount state. -/
def runWorkerEvents (evs : List WorkerEvent) : BridgeState :=
  evs.foldl applyWorkerEvent initialBridgeState

/-- The live object URLs of one result kind. -/
def liveOfKind (b : BridgeState) (k : ResultKind) : List Url :=
  (b.liveUrls.filter (fun e => e.2 == k)).map (fun e => e.1)

/-- The hook's URL ref of one result kind. -/
def urlRefOf (b : BridgeState) (k : ResultKind) : Option Url :=
  match k with
  | .preview => b.previewUrlRef
  | .snapshot => b.snapshotUrlRef

/-- Bridge invariant: a URL of some kind is live exactly when it is the
held ref of that kind; all live URLs predate the counter; live URLs are
pairwise distinct. -/
def BridgeInv (b : BridgeState) : Prop :=
  (∀ u k, ((u, k) ∈ b.liveUrls) ↔ urlRefOf b k = some u) ∧
  (∀ e ∈ b.liveUrls, e.1 < b.urlCounter) ∧
  (b.liveUrls.map Prod.fst).Nodup

/-! ### Recorder capture session (recorder/context.tsx + reducer) -/

/-- `RecordingStatus` from recorder/types.ts. -/
inductive RecordingStatus
  | idle
  | ready
  | recording
  | stopped
  | error
deriving Repr, DecidableEq

/-- Abstract identity of one non-empty data chunk. -/
abbrev Chunk := Nat

/-- `RecorderState` (types.ts) with the platform objects abstracted to
presence flags, blobs to their chunk content plus MIME tag, and object
URLs to counter-minted identifiers. -/
structure RecorderState where
  status : RecordingStatus
  errorMessage : Option String
  hasStream : Bool
  hasRecorder : Bool
  chunks : List Chunk
  blob : Option (List Chunk × String)
  objectUrl : Option Url
  mimeType : Option String
  urlCounter : Nat
deriving Repr, DecidableEq

/-- `initialState` of the reducer. -/
def initialRecorderState : RecorderState :=
  { status := .idle, errorMessage := none, hasStream := false,
    hasRecorder := false, chunks := [], blob := none, objectUrl := none,
    mimeType := none, urlCounter := 0 }

/-- One observable step of the capture session: the public actions with
their platform outcomes, plus the recorder callbacks. -/
inductive RecorderOp
  | init (granted : Bool) (pickedMime : Option String) (failMsg : String)
  | dataavailable (chunk : Option Chunk)
  | recorderError (msg : String)
  | recorderStop
  | start (startOk : Bool) (failMsg : String)
  | stop (stopOk : Bool) (failMsg : String)
  | reset
  | cleanup
deriving Repr, DecidableEq

/-- Transition function of the capture session, following context.tsx
and the reducer; recorder callbacks fire only while a recorder exists. -/
def applyRecorderOp (s : RecorderState) (op : RecorderOp) : RecorderState :=
  match op with
  | .init granted picked failMsg =>
      if granted then
        { s with
          hasStream := true, hasRecorder := true, mimeType := picked,
          status := .ready, chunks := [], blob := none, objectUrl := none }
      else
        { s with status := .error, errorMessage := some failMsg }
  | .dataavailable c =>
      if !s.hasRecorder then s
      else
        match c with
        | some ch => { s with chunks := s.chunks ++ [ch] }
        | none => s
  | .recorderError m =>
      if !s.hasRecorder then s
      else { s with status := .error, errorMessage := some m }
  | .recorderStop =>
      if !s.hasRecorder then s
      else
        { s with
          blob := some (s.chunks, s.mimeType.getD "video/webm"),
          chunks := [], objectUrl := some s.urlCounter,
          urlCounter := s.urlCounter + 1, status := .stopped }
  | .start ok failMsg =>
      if !s.hasRecorder || s.status == .recording then s
      else if ok then { s with chunks := [], status := .recording }
      else { s with chunks := [], status := .error, errorMessage := some failMsg }
  | .stop ok failMsg =>
      if !s.hasRecorder || s.status != .recording then s
      else if ok then s
      else { s with status := .error, errorMessage := some failMsg }
  | .reset =>
      { s with
        objectUrl := none, chunks := [],
        status := if s.hasStream then .ready else .idle }
  | .cleanup =>
      { s with
        hasStream := false, hasRecorder := false, blob := none,
        objectUrl := none, chunks := [], status := .idle }

/-- Run the session from provider mount through a sequence of steps. -/
def runRecorderOps (ops : List RecorderOp) : RecorderState :=
  ops.foldl applyRecorderOp initialRecorderState

/-- Reachability invariant of the capture session: a recorder only
exists alongside its stream, and `idle` states never hold a recorder. -/
def RecReachInv (s : RecorderState) : Prop :=
  (s.hasRecorder = true → s.hasStream = true) ∧
  (s.status = .idle → s.hasRecorder = false)

/-! ### Theorems -/

/-- C7: for every combination of optional (truthy) width and height,
`scaleFilter` derives exactly one scale expression: only height h gives
`["-vf", "scale=-2:h"]`, only width w gives `["-vf", "scale=w:-2"]`,
both give `["-vf", "scale=w:h"]`, neither gives `[]`. -/
theorem scaleFilter_derivation :
    (∀ h : Int, h ≠ 0 →
      scaleFilter { width := none, height := some h } =
        ["-vf", "scale=-2:" ++ toString h]) ∧
    (∀ w : Int, w ≠ 0 →
      scaleFilter { width := some w, height := none } =
        ["-vf", "scale=" ++ toString w ++ ":-2"]) ∧
    (∀ w h : Int, w ≠ 0 → h ≠ 0 →
      scaleFilter { width := some w, height := some h } =
        ["-vf", "scale=" ++ toString w ++ ":" ++ toString h]) ∧
    scaleFilter { width := none, height := none } = [] := by
  refine ⟨?_, ?_, ?_, rfl⟩
  · intro h hh
    simp [scaleFilter, jsTruthy, numText, bne_iff_ne, hh, String.intercalate,
      String.intercalate.go]
  · intro w hw
    simp [scaleFilter, jsTruthy, numText, bne_iff_ne, hw, String.intercalate,
      String.intercalate.go]
  · intro w h hw hh
    simp [scaleFilter, jsTruthy, numText, bne_iff_ne, hw, hh, String.intercalate,
      String.intercalate.go, String.append_assoc]

/-- C7 witness at height 720, width 1280. -/
theorem scaleFilter_derivation_witness :
    scaleFilter { width := none, height := some 720 } = ["-vf", "scale=-2:720"] ∧
    scaleFilter { width := some 1280, height := none } = ["-vf", "scale=1280:-2"] ∧
    scaleFilter { width := some 1280, height := some 720 } = ["-vf", "scale=1280:720"] ∧
    scaleFilter { width := none, height := none } = [] :=
  ⟨scaleFilter_derivation.1 720 (by decide),
   scaleFilter_derivation.2.1 1280 (by decide),
   scaleFilter_derivation.2.2.1 1280 720 (by decide) (by decide),
   scaleFilter_derivation.2.2.2⟩

/-- C10: `scaleFilter` treats a zero width or height as absent: width 0
with height h emits the aspect-preserving filter, height 0 with width w
emits the symmetric one, both zero emit no filter; and every emitted
scale expression has both components nonzero (either -2 or the requested
nonzero dimension), so a zero output dimension can never be requested. -/
theorem scaleFilter_zero_as_absent :
    (∀ h : Int, h ≠ 0 →
      scaleFilter { width := some 0, height := some h } =
        ["-vf", "scale=-2:" ++ toString h]) ∧
    (∀ w : Int, w ≠ 0 →
      scaleFilter { width := some w, height := some 0 } =
        ["-vf", "scale=" ++ toString w ++ ":-2"]) ∧
    scaleFilter { width := some 0, height := some 0 } = [] ∧
    (∀ opts : ScaleOpts, scaleFilter opts = [] ∨
      ∃ a b : Int, a ≠ 0 ∧ b ≠ 0 ∧
        scaleFilter opts = ["-vf", "scale=" ++ toString a ++ ":" ++ toString b]) := by
  refine ⟨?_, ?_, rfl, ?_⟩
  · intro h hh
    simp [scaleFilter, jsTruthy, numText, bne_iff_ne, hh, String.intercalate,
      String.intercalate.go]
  · intro w hw
    simp [scaleFilter, jsTruthy, numText, bne_iff_ne, hw, String.intercalate,
      String.intercalate.go]
  · rintro ⟨w, h⟩
    match w, h with
    | none, none => exact Or.inl rfl
    | none, some hv =>
        by_cases hh : hv = 0
        · subst hh; exact Or.inl rfl
        · refine Or.inr ⟨-2, hv, by decide, hh, ?_⟩
          simp [scaleFilter, jsTruthy, numText, bne_iff_ne, hh, String.intercalate,
            String.intercalate.go]
          rw [String.append_assoc]
          rfl
    | some wv, none =>
        by_cases hw : wv = 0
        · subst hw; exact Or.inl rfl
        · refine Or.inr ⟨wv, -2, hw, by decide, ?_⟩
          simp [scaleFilter, jsTruthy, numText, bne_iff_ne, hw, String.intercalate,
            String.intercalate.go]
          rw [String.append_assoc ("scale=" ++ toString wv) ":" (toString (-2 : Int))]
          rfl
    | some wv, some hv =>
        by_cases hw : wv = 0
        · subst hw
          by_cases hh : hv = 0
          · subst hh; exact Or.inl rfl
          · refine Or.inr ⟨-2, hv, by decide, hh, ?_⟩
            simp [scaleFilter, jsTruthy, numText, bne_iff_ne, hh, String.intercalate,
              String.intercalate.go]
            rw [String.append_assoc]
            rfl
        · by_cases hh : hv = 0
          · subst hh
            refine Or.inr ⟨wv, -2, hw, by decide, ?_⟩
            simp [scaleFilter, jsTruthy, numText, bne_iff_ne, hw, String.intercalate,
              String.intercalate.go]
            rw [String.append_assoc ("scale=" ++ toString wv) ":" (toString (-2 : Int))]
            rfl
          · refine Or.inr ⟨wv, hv, hw, hh, ?_⟩
            simp [scaleFilter, jsTruthy, numText, bne_iff_ne, hw, hh, String.intercalate,
              String.intercalate.go, String.append_assoc]

/-- C10 witness at width 0 / height 720, width 1280 / height 0. -/
theorem scaleFilter_zero_as_absent_witness :
    scaleFilter { width := some 0, height := some 720 } = ["-vf", "scale=-2:720"] ∧
    scaleFilter { width := some 1280, height := some 0 } = ["-vf", "scale=1280:-2"] ∧
    scaleFilter { width := some 0, height := some 0 } = [] :=
  ⟨scaleFilter_zero_as_absent.1 720 (by decide),
   scaleFilter_zero_as_absent.2.1 1280 (by decide),
   scaleFilter_zero_as_absent.2.2.1⟩

/-- C5: `isCoreCached` returns true iff both asset keys are present in
the bucket (when Cache Storage is available), returns false when the
storage API is unavailable, and never throws. -/
theorem isCoreCached_iff_both_present (env : BrowserEnv) (cs : CacheStorage) :
    (env.cachesAvailable = true →
      (isCoreCached env cs = .ok true ↔
        (cacheMatch (storageOpen cs FFMPEG_CACHE_NAME) CORE_JS_URL).isSome = true ∧
        (cacheMatch (storageOpen cs FFMPEG_CACHE_NAME) CORE_WASM_URL).isSome = true)) ∧
    (env.cachesAvailable = false → isCoreCached env cs = .ok false) ∧
    ∃ v, isCoreCached env cs = .ok v := by
  refine ⟨fun hav => ?_, fun hav => ?_, ?_⟩
  · simp [isCoreCached, hav]
  · simp [isCoreCached, hav]
  · cases hav : env.cachesAvailable <;> simp [isCoreCached, hav]

/-- C5 witness: a bucket holding both keys reports cached; an
unavailable environment reports not cached. -/
theorem isCoreCached_iff_both_present_witness :
    isCoreCached ⟨true, ⟨200, []⟩, ⟨200, []⟩⟩
        [(FFMPEG_CACHE_NAME, [(CORE_JS_URL, []), (CORE_WASM_URL, [])])] = .ok true ∧
    isCoreCached ⟨false, ⟨200, []⟩, ⟨200, []⟩⟩ [] = .ok false :=
  ⟨((isCoreCached_iff_both_present ⟨true, ⟨200, []⟩, ⟨200, []⟩⟩
      [(FFMPEG_CACHE_NAME, [(CORE_JS_URL, []), (CORE_WASM_URL, [])])]).1 rfl).mpr
      (by constructor <;> decide),
   (isCoreCached_iff_both_present ⟨false, ⟨200, []⟩, ⟨200, []⟩⟩ []).2.1 rfl⟩

/-- C6: warm fails with the exact environment error when Cache Storage
is absent; a non-success fetch status makes it throw with that HTTP
status embedded and nothing is stored (the error carries no new storage,
so the bucket is unchanged); when both fetches succeed, both bodies are
stored under their URL keys. -/
theorem cacheCoreAssets_error_paths (env : BrowserEnv) (cs : CacheStorage) :
    (env.cachesAvailable = false →
      cacheCoreAssets env cs =
        .error "Cache Storage API is not available in this environment") ∧
    (env.cachesAvailable = true → env.jsResponse.isOk = false →
      cacheCoreAssets env cs =
        .error ("Failed to fetch ffmpeg-core.js: " ++ toString env.jsResponse.status)) ∧
    (env.cachesAvailable = true → env.jsResponse.isOk = true →
      env.wasmResponse.isOk = false →
      cacheCoreAssets env cs =
        .error ("Failed to fetch ffmpeg-core.wasm: " ++ toString env.wasmResponse.status)) ∧
    (env.cachesAvailable = true → env.jsResponse.isOk = true →
      env.wasmResponse.isOk = true →
      ∃ cs', cacheCoreAssets env cs = .ok cs' ∧
        cacheMatch (storageOpen cs' FFMPEG_CACHE_NAME) CORE_JS_URL =
          some env.jsResponse.body ∧
        cacheMatch (storageOpen cs' FFMPEG_CACHE_NAME) CORE_WASM_URL =
          some env.wasmResponse.body) := by
  refine ⟨fun hav => ?_, fun hav hjs => ?_, fun hav hjs hwasm => ?_,
    fun hav hjs hwasm => ?_⟩
  · simp [cacheCoreAssets, hav]
  · simp [cacheCoreAssets, hav, hjs]
  · simp [cacheCoreAssets, hav, hjs, hwasm]
  · have hne : (CORE_WASM_URL == CORE_JS_URL) = false := by decide
    have hne' : (CORE_JS_URL != CORE_WASM_URL) = true := by decide
    refine ⟨storageSetBucket cs FFMPEG_CACHE_NAME
        (cachePut (cachePut (storageOpen cs FFMPEG_CACHE_NAME) CORE_JS_URL
          env.jsResponse.body) CORE_WASM_URL env.wasmResponse.body),
      by simp [cacheCoreAssets, hav, hjs, hwasm], ?_, ?_⟩
    · simp [storageOpen, storageSetBucket, List.find?, cacheMatch, cachePut,
        List.filter, hne, hne', beq_self_eq_true]
    · simp [storageOpen, storageSetBucket, List.find?, cacheMatch, cachePut,
        List.filter, hne, hne', beq_self_eq_true]

/-- C6 witness: unavailable storage, a 404 js fetch, a 500 wasm fetch,
and a fully successful warm. -/
theorem cacheCoreAssets_error_paths_witness :
    cacheCoreAssets ⟨false, ⟨200, []⟩, ⟨200, []⟩⟩ [] =
      .error "Cache Storage API is not available in this environment" ∧
    cacheCoreAssets ⟨true, ⟨404, []⟩, ⟨200, []⟩⟩ [] =
      .error "Failed to fetch ffmpeg-core.js: 404" ∧
    cacheCoreAssets ⟨true, ⟨200, []⟩, ⟨500, []⟩⟩ [] =
      .error "Failed to fetch ffmpeg-core.wasm: 500" ∧
    ∃ cs', cacheCoreAssets ⟨true, ⟨200, [1]⟩, ⟨200, [2]⟩⟩ [] = .ok cs' ∧
      cacheMatch (storageOpen cs' FFMPEG_CACHE_NAME) CORE_JS_URL = some [1] ∧
      cacheMatch (storageOpen cs' FFMPEG_CACHE_NAME) CORE_WASM_URL = some [2] :=
  ⟨(cacheCoreAssets_error_paths ⟨false, ⟨200, []⟩, ⟨200, []⟩⟩ []).1 rfl,
   (cacheCoreAssets_error_paths ⟨true, ⟨404, []⟩, ⟨200, []⟩⟩ []).2.1 rfl rfl,
   (cacheCoreAssets_error_paths ⟨true, ⟨200, []⟩, ⟨500, []⟩⟩ []).2.2.1 rfl rfl rfl,
   (cacheCoreAssets_error_paths ⟨true, ⟨200, [1]⟩, ⟨200, [2]⟩⟩ []).2.2.2 rfl rfl rfl⟩

/-- C2 (code bug evidence): the hook's progress handler stores the raw
incoming ratio value without clamping — a ratio of -0.2 is observable as
progress -0.2 (below 0), a ratio of 1.7 as progress 1.7 (above 1),
contradicting the documented 0..1 range of the progress field. -/
theorem progress_update_not_clamped :
    (applyWorkerEvent initialBridgeState (.progress (-1/5) none)).hook.progress
        = -1/5 ∧
    (applyWorkerEvent initialBridgeState (.progress (17/10) none)).hook.progress
        = 17/10 ∧
    ((-1/5 : ℚ) < 0) ∧ ((1 : ℚ) < 17/10) :=
  ⟨rfl, rfl, by norm_num, by norm_num⟩

/-- C1: a `preview` or `snapshot` command arriving while the busy flag
is set is rejected with exactly one `error` event carrying
"FFmpeg worker is busy" and the worker state is left completely
unchanged (so the in-flight job resumes and completes exactly as it
would have); no `result` event is emitted for the rejected command, and
on the bridge side the busy error mutates neither result reference nor
any live object URL. -/
theorem busy_job_rejected_without_mutation (s : WorkerState) (b : BridgeState)
    (p : PreviewParams) (q : SnapshotParams) (oracle : EngineOracle)
    (hb : s.busy = true) (hl : s.ffmpegLoaded = true) (hnl : s.loading = false) :
    onmessage s (.preview p) oracle = (s, [.error "FFmpeg worker is busy"]) ∧
    onmessage s (.snapshot q) oracle = (s, [.error "FFmpeg worker is busy"]) ∧
    (applyWorkerEvent b (.error "FFmpeg worker is busy")).previewUrlRef
        = b.previewUrlRef ∧
    (applyWorkerEvent b (.error "FFmpeg worker is busy")).snapshotUrlRef
        = b.snapshotUrlRef ∧
    (applyWorkerEvent b (.error "FFmpeg worker is busy")).hook.previewUrl
        = b.hook.previewUrl ∧
    (applyWorkerEvent b (.error "FFmpeg worker is busy")).hook.snapshotUrl
        = b.hook.snapshotUrl ∧
    (applyWorkerEvent b (.error "FFmpeg worker is busy")).liveUrls = b.liveUrls := by
  refine ⟨?_, ?_, rfl, rfl, rfl, rfl, rfl⟩ <;>
    simp [onmessage, ensureLoaded, hb, hl, hnl]

/-- C1 witness: a concrete busy worker state rejecting both job kinds. -/
theorem busy_job_rejected_without_mutation_witness :
    onmessage ⟨true, false, true, ["input.webm"]⟩
        (.preview ⟨[], none, none, none, none, none, none, none, none⟩)
        ⟨none, .success []⟩
      = (⟨true, false, true, ["input.webm"]⟩, [.error "FFmpeg worker is busy"]) ∧
    onmessage ⟨true, false, true, ["input.webm"]⟩
        (.snapshot ⟨[], none, none, none, none, none⟩) ⟨none, .success []⟩
      = (⟨true, false, true, ["input.webm"]⟩, [.error "FFmpeg worker is busy"]) :=
  ⟨(busy_job_rejected_without_mutation ⟨true, false, true, ["input.webm"]⟩
      initialBridgeState ⟨[], none, none, none, none, none, none, none, none⟩
      ⟨[], none, none, none, none, none⟩ ⟨none, .success []⟩ rfl rfl rfl).1,
   (busy_job_rejected_without_mutation ⟨true, false, true, ["input.webm"]⟩
      initialBridgeState ⟨[], none, none, none, none, none, none, none, none⟩
      ⟨[], none, none, none, none, none⟩ ⟨none, .success []⟩ rfl rfl rfl).2.1⟩

/-- C8: whatever the outcome of the awaited engine pipeline (success,
exec failure — including abort by concurrent teardown — or read
failure), a preview or snapshot job leaves the virtual FS without its
input file and without any candidate output file, and releases the busy
flag, before the operation returns. -/
theorem job_cleanup_always_runs (s : WorkerState) (p : PreviewParams)
    (q : SnapshotParams) (oracle : EngineOracle) (hl : s.ffmpegLoaded = true) :
    ((doPreview s p oracle).1.busy = false ∧
      "preview.mp4" ∉ (doPreview s p oracle).1.fs ∧
      "preview.webm" ∉ (doPreview s p oracle).1.fs ∧
      p.inputName.getD "input.webm" ∉ (doPreview s p oracle).1.fs) ∧
    ((doSnapshot s q oracle).1.busy = false ∧
      "thumb.jpg" ∉ (doSnapshot s q oracle).1.fs ∧
      q.inputName.getD "input.webm" ∉ (doSnapshot s q oracle).1.fs) := by
  constructor
  · rcases hex : oracle.execResult with out | m | m <;>
      simp [doPreview, hl, hex, fsDelete, List.mem_filter, bne_iff_ne]
  · rcases hex : oracle.execResult with out | m | m <;>
      simp [doSnapshot, hl, hex, fsDelete, List.mem_filter, bne_iff_ne]

/-- C8 witness: a concrete loaded worker running both job kinds with a
successful pipeline. -/
theorem job_cleanup_always_runs_witness :
    ((doPreview ⟨true, false, false, []⟩
        ⟨[7], none, none, none, none, none, none, none, none⟩
        ⟨none, .success [1]⟩).1.busy = false ∧
      "preview.mp4" ∉ (doPreview ⟨true, false, false, []⟩
        ⟨[7], none, none, none, none, none, none, none, none⟩
        ⟨none, .success [1]⟩).1.fs ∧
      "preview.webm" ∉ (doPreview ⟨true, false, false, []⟩
        ⟨[7], none, none, none, none, none, none, none, none⟩
        ⟨none, .success [1]⟩).1.fs ∧
      (Option.none).getD "input.webm" ∉ (doPreview ⟨true, false, false, []⟩
        ⟨[7], none, none, none, none, none, none, none, none⟩
        ⟨none, .success [1]⟩).1.fs) ∧
    ((doSnapshot ⟨true, false, false, []⟩ ⟨[7], none, none, none, none, none⟩
        ⟨none, .success [1]⟩).1.busy = false ∧
      "thumb.jpg" ∉ (doSnapshot ⟨true, false, false, []⟩
        ⟨[7], none, none, none, none, none⟩ ⟨none, .success [1]⟩).1.fs ∧
      (Option.none).getD "input.webm" ∉ (doSnapshot ⟨true, false, false, []⟩
        ⟨[7], none, none, none, none, none⟩ ⟨none, .success [1]⟩).1.fs) :=
  job_cleanup_always_runs ⟨true, false, false, []⟩
    ⟨[7], none, none, none, none, none, none, none, none⟩
    ⟨[7], none, none, none, none, none⟩ ⟨none, .success [1]⟩ rfl

/-- Helper: one capture-session step preserves "an object URL implies a
final blob". -/
theorem url_blob_step (s : RecorderState) (op : RecorderOp)
    (h : s.objectUrl.isSome = true → s.blob.isSome = true) :
    (applyRecorderOp s op).objectUrl.isSome = true →
      (applyRecorderOp s op).blob.isSome = true := by
  cases op with
  | init g p m =>
      cases g <;> simp [applyRecorderOp] <;> exact h
  | dataavailable c =>
      rcases c with _ | ch <;> cases hr : s.hasRecorder <;>
        simp [applyRecorderOp, hr] <;> exact h
  | recorderError m =>
      cases hr : s.hasRecorder <;> simp [applyRecorderOp, hr] <;> exact h
  | recorderStop =>
      cases hr : s.hasRecorder <;> simp [applyRecorderOp, hr]
      exact h
  | start ok m =>
      simp only [applyRecorderOp]
      split_ifs <;> exact h
  | stop ok m =>
      simp only [applyRecorderOp]
      split_ifs <;> exact h
  | reset =>
      simp [applyRecorderOp]
  | cleanup =>
      simp [applyRecorderOp]

/-- Helper: folding capture-session steps preserves "an object URL
implies a final blob". -/
theorem url_blob_run (ops : List RecorderOp) :
    ∀ s : RecorderState, (s.objectUrl.isSome = true → s.blob.isSome = true) →
      (ops.foldl applyRecorderOp s).objectUrl.isSome = true →
      (ops.foldl applyRecorderOp s).blob.isSome = true := by
  induction ops with
  | nil => intro s h; simpa using h
  | cons op t ih =>
      intro s h
      rw [List.foldl_cons]
      exact ih _ (url_blob_step s op h)

/-- C4 counterexample: after init, start, stop, recorder finalization
and then reset, the session holds a final blob but no object URL — the
claimed "objectUrl non-null iff blob non-null" fails in this reachable
state (reset clears the URL but keeps the blob). -/
theorem url_blob_iff_counterexample :
    (runRecorderOps [.init true (some "video/webm") "", .start true "",
        .stop true "", .recorderStop, .reset]).blob.isSome = true ∧
    (runRecorderOps [.init true (some "video/webm") "", .start true "",
        .stop true "", .recorderStop, .reset]).objectUrl = none ∧
    ¬((runRecorderOps [.init true (some "video/webm") "", .start true "",
        .stop true "", .recorderStop, .reset]).objectUrl ≠ none ↔
      (runRecorderOps [.init true (some "video/webm") "", .start true "",
        .stop true "", .recorderStop, .reset]).blob ≠ none) := by
  refine ⟨rfl, rfl, ?_⟩
  intro hiff
  exact absurd (hiff.mpr (by decide)) (by decide)

/-- C4 amended: in every reachable state of the capture session, an
object URL implies a final blob (the converse direction of the claimed
iff fails: `reset` revokes and clears the URL while keeping the blob). -/
theorem url_implies_blob_amended (ops : List RecorderOp)
    (h : (runRecorderOps ops).objectUrl.isSome = true) :
    (runRecorderOps ops).blob.isSome = true :=
  url_blob_run ops initialRecorderState (by simp [initialRecorderState]) h

/-- C4 amended witness: after a full recording the session holds an
object URL, so the amended invariant yields a blob. -/
theorem url_implies_blob_amended_witness :
    (runRecorderOps [.init true (some "video/webm") "", .start true "",
        .stop true "", .recorderStop]).objectUrl.isSome = true ∧
    (runRecorderOps [.init true (some "video/webm") "", .start true "",
        .stop true "", .recorderStop]).blob.isSome = true :=
  ⟨rfl, url_implies_blob_amended [.init true (some "video/webm") "",
    .start true "", .stop true "", .recorderStop] rfl⟩

/-- Helper: one capture-session step preserves the reachability
invariant. -/
theorem recReachInv_step (s : RecorderState) (op : RecorderOp)
    (h : RecReachInv s) : RecReachInv (applyRecorderOp s op) := by
  unfold RecReachInv at h ⊢
  obtain ⟨h1, h2⟩ := h
  cases op with
  | init g p m =>
      cases g <;> simp [applyRecorderOp] <;> exact h1
  | dataavailable c =>
      rcases c with _ | ch <;> cases hr : s.hasRecorder <;>
        simp [applyRecorderOp, hr] <;>
        exact ⟨h1 hr, fun hidle => by rw [h2 hidle] at hr; exact Bool.noConfusion hr⟩
  | recorderError m =>
      cases hr : s.hasRecorder <;> simp [applyRecorderOp, hr] <;> exact h1 hr
  | recorderStop =>
      cases hr : s.hasRecorder <;> simp [applyRecorderOp, hr] <;> exact h1 hr
  | start ok m =>
      simp only [applyRecorderOp]
      by_cases hg : (!s.hasRecorder || s.status == RecordingStatus.recording) = true
      · simp [hg]
        exact ⟨h1, h2⟩
      · simp [hg]
        cases ok <;> simp <;> exact h1
  | stop ok m =>
      simp only [applyRecorderOp]
      by_cases hg : (!s.hasRecorder || s.status != RecordingStatus.recording) = true
      · simp [hg]
        exact ⟨h1, h2⟩
      · simp [hg]
        cases ok
        · simp
          exact h1
        · simp
          exact ⟨h1, h2⟩
  | reset =>
      by_cases hs : s.hasStream = true
      · simp [applyRecorderOp, hs]
      · simp [applyRecorderOp, hs]
        cases hcr : s.hasRecorder
        · rfl
        · exact absurd (h1 hcr) hs
  | cleanup =>
      simp [applyRecorderOp]

/-- Helper: every reachable capture-session state satisfies the
reachability invariant. -/
theorem recReachInv_run (ops : List RecorderOp) :
    RecReachInv (runRecorderOps ops) := by
  have main : ∀ (l : List RecorderOp) (s : RecorderState), RecReachInv s →
      RecReachInv (l.foldl applyRecorderOp s) := by
    intro l
    induction l with
    | nil => intro s h; simpa using h
    | cons op t ih =>
        intro s h
        rw [List.foldl_cons]
        exact ih _ (recReachInv_step s op h)
  have hinit : RecReachInv initialRecorderState := by
    unfold RecReachInv initialRecorderState
    simp
  exact main ops initialRecorderState hinit

/-- C9 counterexample: in the reachable state produced by a successful
init followed by a recorder error (status `error`, recorder still
present), `start()` is not a no-op — it proceeds and transitions the
status to `recording`, contradicting "from status error start() changes
nothing". -/
theorem start_guard_counterexample :
    (runRecorderOps [.init true (some "video/webm") "x",
        .recorderError "Recorder error"]).status = .error ∧
    (runRecorderOps [.init true (some "video/webm") "x",
        .recorderError "Recorder error"]).hasRecorder = true ∧
    (applyRecorderOp (runRecorderOps [.init true (some "video/webm") "x",
        .recorderError "Recorder error"]) (.start true "m")).status = .recording ∧
    applyRecorderOp (runRecorderOps [.init true (some "video/webm") "x",
        .recorderError "Recorder error"]) (.start true "m") ≠
      runRecorderOps [.init true (some "video/webm") "x",
        .recorderError "Recorder error"] := by
  refine ⟨rfl, rfl, rfl, ?_⟩
  intro he
  exact absurd (congrArg RecorderState.status he) (by decide)

/-- C9 amended: `start()` is a no-op exactly when no recorder exists or
the status is already `recording`; with a recorder present and any other
status — including `error` — it clears the chunks and transitions to
`recording` (when `recorder.start()` succeeds), so it is not a no-op
there; and in reachable `idle` states no recorder exists, hence
`start()` from `idle` still changes nothing. -/
theorem start_guard_amended :
    (∀ (s : RecorderState) (ok : Bool) (m : String),
      s.hasRecorder = false ∨ s.status = .recording →
        applyRecorderOp s (.start ok m) = s) ∧
    (∀ (s : RecorderState) (m : String), s.hasRecorder = true →
      s.status ≠ .recording →
        applyRecorderOp s (.start true m) =
          { s with chunks := [], status := .recording } ∧
        applyRecorderOp s (.start true m) ≠ s) ∧
    (∀ (ops : List RecorderOp) (ok : Bool) (m : String),
      (runRecorderOps ops).status = .idle →
        applyRecorderOp (runRecorderOps ops) (.start ok m) = runRecorderOps ops) := by
  refine ⟨?_, ?_, ?_⟩
  · rintro s ok m (hr | hs)
    · simp [applyRecorderOp, hr]
    · simp [applyRecorderOp, hs]
  · intro s m hr hs
    have he1 : applyRecorderOp s (.start true m) =
        { s with chunks := [], status := .recording } := by
      simp [applyRecorderOp, hr, hs]
    refine ⟨he1, ?_⟩
    intro he
    rw [he1] at he
    have hst := congrArg RecorderState.status he
    simp at hst
    exact hs hst.symm
  · intro ops ok m hidle
    have hinv := recReachInv_run ops
    unfold RecReachInv at hinv
    simp [applyRecorderOp, hinv.2 hidle]

/-- C9 amended witness: the error-with-recorder state really does start
recording, and a concrete reachable idle state ignores start. -/
theorem start_guard_amended_witness :
    applyRecorderOp (runRecorderOps [.init true (some "video/webm") "x",
        .recorderError "Recorder error"]) (.start true "m") =
      { runRecorderOps [.init true (some "video/webm") "x",
          .recorderError "Recorder error"] with
        chunks := [], status := .recording } ∧
    applyRecorderOp (runRecorderOps ([] : List RecorderOp)) (.start true "m") =
      runRecorderOps ([] : List RecorderOp) :=
  ⟨(start_guard_amended.2.1 (runRecorderOps [.init true (some "video/webm") "x",
      .recorderError "Recorder error"]) "m" rfl (by decide)).1,
   start_guard_amended.2.2 [] true "m" rfl⟩

/-- Helper: a Nodup list all of whose members equal `a` has at most one
element. -/
theorem nodup_all_eq_length_le_one {α : Type} (l : List α) (a : α)
    (hn : l.Nodup) (h : ∀ x ∈ l, x = a) : l.length ≤ 1 := by
  cases l with
  | nil => simp
  | cons x t =>
      cases t with
      | nil => simp
      | cons y u =>
          exfalso
          have hx : x = a := h x (by simp)
          have hy : y = a := h y (by simp)
          rw [List.nodup_cons] at hn
          exact hn.1 (by simp [hx, hy])

/-- Helper: under the bridge invariant each kind has at most one live
object URL. -/
theorem liveOfKind_length_le_one (b : BridgeState) (h : BridgeInv b)
    (k : ResultKind) : (liveOfKind b k).length ≤ 1 := by
  unfold BridgeInv at h
  obtain ⟨hmem, hlt, hnd⟩ := h
  unfold liveOfKind
  rw [List.length_map]
  rcases href : urlRefOf b k with _ | u0
  · have hnil : b.liveUrls.filter (fun e => e.2 == k) = [] := by
      apply List.filter_eq_nil_iff.mpr
      intro e he hpe
      have h2 : e.2 = k := by simpa using hpe
      have h3 : urlRefOf b e.2 = some e.1 := (hmem e.1 e.2).mp he
      rw [h2, href] at h3
      exact Option.noConfusion h3
    rw [hnil]
    simp
  · apply nodup_all_eq_length_le_one _ (u0, k)
    · exact (hnd.of_map).filter _
    · intro x hx
      rw [List.mem_filter] at hx
      obtain ⟨hxl, hxk⟩ := hx
      have h2 : x.2 = k := by simpa using hxk
      have h3 : urlRefOf b x.2 = some x.1 := (hmem x.1 x.2).mp hxl
      rw [h2, href] at h3
      obtain ⟨x1, x2⟩ := x
      simp only at h2 h3
      rw [h2, Option.some.inj h3]

/-- Helper: the bridge invariant only depends on the refs, the live list
and the counter; events that touch only the hook preserve it. -/
theorem bridgeInv_frame (b b' : BridgeState)
    (hl : b'.liveUrls = b.liveUrls) (hp : b'.previewUrlRef = b.previewUrlRef)
    (hs : b'.snapshotUrlRef = b.snapshotUrlRef) (hc : b'.urlCounter = b.urlCounter)
    (h : BridgeInv b) : BridgeInv b' := by
  unfold BridgeInv at h ⊢
  obtain ⟨hmem, hlt, hnd⟩ := h
  refine ⟨?_, ?_, ?_⟩
  · intro u k
    cases k
    · rw [hl, show urlRefOf b' ResultKind.preview = b'.previewUrlRef from rfl, hp]
      exact hmem u ResultKind.preview
    · rw [hl, show urlRefOf b' ResultKind.snapshot = b'.snapshotUrlRef from rfl, hs]
      exact hmem u ResultKind.snapshot
  · rw [hl, hc]
    exact hlt
  · rw [hl]
    exact hnd

/-- Helper: one worker event preserves the bridge invariant. -/
theorem bridgeInv_step (b : BridgeState) (ev : WorkerEvent)
    (h : BridgeInv b) : BridgeInv (applyWorkerEvent b ev) := by
  cases ev with
  | loaded => exact bridgeInv_frame b _ rfl rfl rfl rfl h
  | progress r t => exact bridgeInv_frame b _ rfl rfl rfl rfl h
  | log m => exact bridgeInv_frame b _ rfl rfl rfl rfl h
  | canceled => exact bridgeInv_frame b _ rfl rfl rfl rfl h
  | terminated => exact bridgeInv_frame b _ rfl rfl rfl rfl h
  | error m => exact bridgeInv_frame b _ rfl rfl rfl rfl h
  | result kind nm mime data =>
      unfold BridgeInv at h
      obtain ⟨hmem, hlt, hnd⟩ := h
      cases kind with
      | preview =>
          rcases href : b.previewUrlRef with _ | old
          · have e1 : (applyWorkerEvent b (.result .preview nm mime data)).liveUrls
                = (b.urlCounter, ResultKind.preview) :: b.liveUrls := by
              simp [applyWorkerEvent, revokeObjectURL, href]
            have e2 : (applyWorkerEvent b (.result .preview nm mime data)).previewUrlRef
                = some b.urlCounter := by
              simp [applyWorkerEvent, revokeObjectURL, href]
            have e3 : (applyWorkerEvent b (.result .preview nm mime data)).snapshotUrlRef
                = b.snapshotUrlRef := by
              simp [applyWorkerEvent, revokeObjectURL, href]
            have e4 : (applyWorkerEvent b (.result .preview nm mime data)).urlCounter
                = b.urlCounter + 1 := by
              simp [applyWorkerEvent, revokeObjectURL, href]
            unfold BridgeInv
            refine ⟨?_, ?_, ?_⟩
            · intro u k
              cases k
              · show (u, ResultKind.preview) ∈
                    (applyWorkerEvent b (.result .preview nm mime data)).liveUrls ↔
                    (applyWorkerEvent b (.result .preview nm mime data)).previewUrlRef
                      = some u
                rw [e1, e2]
                constructor
                · intro hin
                  rcases List.mem_cons.mp hin with heq | hin'
                  · rw [Prod.mk.injEq] at heq
                    rw [heq.1]
                  · have h3 : b.previewUrlRef = some u :=
                      (hmem u ResultKind.preview).mp hin'
                    rw [href] at h3
                    exact Option.noConfusion h3
                · intro hru
                  obtain rfl := Option.some.inj hru
                  exact List.mem_cons_self _ _
              · show (u, ResultKind.snapshot) ∈
                    (applyWorkerEvent b (.result .preview nm mime data)).liveUrls ↔
                    (applyWorkerEvent b (.result .preview nm mime data)).snapshotUrlRef
                      = some u
                rw [e1, e3]
                constructor
                · intro hin
                  rcases List.mem_cons.mp hin with heq | hin'
                  · rw [Prod.mk.injEq] at heq
                    exact ResultKind.noConfusion heq.2
                  · exact (hmem u ResultKind.snapshot).mp hin'
                · intro hru
                  exact List.mem_cons_of_mem _ ((hmem u ResultKind.snapshot).mpr hru)
            · rw [e1, e4]
              intro e he
              rcases List.mem_cons.mp he with heq | hin'
              · rw [heq]
                exact Nat.lt_succ_self _
              · exact Nat.lt_succ_of_lt (hlt e hin')
            · rw [e1, List.map_cons, List.nodup_cons]
              refine ⟨?_, hnd⟩
              intro hmm
              obtain ⟨e, he, hfst⟩ := List.mem_map.mp hmm
              have hel := hlt e he
              rw [hfst] at hel
              exact Nat.lt_irrefl _ hel
          · have hold_mem : (old, ResultKind.preview) ∈ b.liveUrls :=
              (hmem old ResultKind.preview).mpr href
            have hold_lt : old < b.urlCounter := hlt _ hold_mem
            have hfl : ((b.urlCounter, ResultKind.preview) :: b.liveUrls).filter
                  (fun e => e.1 != old)
                = (b.urlCounter, ResultKind.preview) ::
                    b.liveUrls.filter (fun e => e.1 != old) :=
              List.filter_cons_of_pos (by simp [bne_iff_ne]; exact ne_of_gt hold_lt)
            have e1 : (applyWorkerEvent b (.result .preview nm mime data)).liveUrls
                = (b.urlCounter, ResultKind.preview) ::
                    b.liveUrls.filter (fun e => e.1 != old) := by
              simp only [applyWorkerEvent, revokeObjectURL, href, ← hfl]
            have e2 : (applyWorkerEvent b (.result .preview nm mime data)).previewUrlRef
                = some b.urlCounter := by
              simp [applyWorkerEvent, revokeObjectURL, href]
            have e3 : (applyWorkerEvent b (.result .preview nm mime data)).snapshotUrlRef
                = b.snapshotUrlRef := by
              simp [applyWorkerEvent, revokeObjectURL, href]
            have e4 : (applyWorkerEvent b (.result .preview nm mime data)).urlCounter
                = b.urlCounter + 1 := by
              simp [applyWorkerEvent, revokeObjectURL, href]
            unfold BridgeInv
            refine ⟨?_, ?_, ?_⟩
            · intro u k
              cases k
              · show (u, ResultKind.preview) ∈
                    (applyWorkerEvent b (.result .preview nm mime data)).liveUrls ↔
                    (applyWorkerEvent b (.result .preview nm mime data)).previewUrlRef
                      = some u
                rw [e1, e2]
                constructor
                · intro hin
                  rcases List.mem_cons.mp hin with heq | hin'
                  · rw [Prod.mk.injEq] at heq
                    rw [heq.1]
                  · rw [List.mem_filter] at hin'
                    obtain ⟨hl', hne⟩ := hin'
                    have h3 : b.previewUrlRef = some u :=
                      (hmem u ResultKind.preview).mp hl'
                    rw [href] at h3
                    have huo : u = old := (Option.some.inj h3).symm
                    simp [bne_iff_ne] at hne
                    exact absurd huo hne
                · intro hru
                  obtain rfl := Option.some.inj hru
                  exact List.mem_cons_self _ _
              · show (u, ResultKind.snapshot) ∈
                    (applyWorkerEvent b (.result .preview nm mime data)).liveUrls ↔
                    (applyWorkerEvent b (.result .preview nm mime data)).snapshotUrlRef
                      = some u
                rw [e1, e3]
                constructor
                · intro hin
                  rcases List.mem_cons.mp hin with heq | hin'
                  · rw [Prod.mk.injEq] at heq
                    exact ResultKind.noConfusion heq.2
                  · rw [List.mem_filter] at hin'
                    exact (hmem u ResultKind.snapshot).mp hin'.1
                · intro hru
                  have hl' : (u, ResultKind.snapshot) ∈ b.liveUrls :=
                    (hmem u ResultKind.snapshot).mpr hru
                  apply List.mem_cons_of_mem
                  rw [List.mem_filter]
                  refine ⟨hl', ?_⟩
                  simp only [bne_iff_ne]
                  intro huo
                  subst huo
                  have heqp : (u, ResultKind.snapshot) = (u, ResultKind.preview) :=
                    List.inj_on_of_nodup_map hnd hl' hold_mem rfl
                  exact ResultKind.noConfusion (congrArg Prod.snd heqp)
            · rw [e1, e4]
              intro e he
              rcases List.mem_cons.mp he with heq | hin'
              · rw [heq]
                exact Nat.lt_succ_self _
              · rw [List.mem_filter] at hin'
                exact Nat.lt_succ_of_lt (hlt e hin'.1)
            · rw [e1, List.map_cons, List.nodup_cons]
              constructor
              · intro hmm
                obtain ⟨e, he, hfst⟩ := List.mem_map.mp hmm
                rw [List.mem_filter] at he
                have hel := hlt e he.1
                rw [hfst] at hel
                exact Nat.lt_irrefl _ hel
              · exact List.Nodup.sublist
                  ((List.filter_sublist b.liveUrls).map Prod.fst) hnd
      | snapshot =>
          rcases href : b.snapshotUrlRef with _ | old
          · have e1 : (applyWorkerEvent b (.result .snapshot nm mime data)).liveUrls
                = (b.urlCounter, ResultKind.snapshot) :: b.liveUrls := by
              simp [applyWorkerEvent, revokeObjectURL, href]
            have e2 : (applyWorkerEvent b (.result .snapshot nm mime data)).snapshotUrlRef
                = some b.urlCounter := by
              simp [applyWorkerEvent, revokeObjectURL, href]
            have e3 : (applyWorkerEvent b (.result .snapshot nm mime data)).previewUrlRef
                = b.previewUrlRef := by
              simp [applyWorkerEvent, revokeObjectURL, href]
            have e4 : (applyWorkerEvent b (.result .snapshot nm mime data)).urlCounter
                = b.urlCounter + 1 := by
              simp [applyWorkerEvent, revokeObjectURL, href]
            unfold BridgeInv
            refine ⟨?_, ?_, ?_⟩
            · intro u k
              cases k
              · show (u, ResultKind.preview) ∈
                    (applyWorkerEvent b (.result .snapshot nm mime data)).liveUrls ↔
                    (applyWorkerEvent b (.result .snapshot nm mime data)).previewUrlRef
                      = some u
                rw [e1, e3]
                constructor
                · intro hin
                  rcases List.mem_cons.mp hin with heq | hin'
                  · rw [Prod.mk.injEq] at heq
                    exact ResultKind.noConfusion heq.2
                  · exact (hmem u ResultKind.preview).mp hin'
                · intro hru
                  exact List.mem_cons_of_mem _ ((hmem u ResultKind.preview).mpr hru)
              · show (u, ResultKind.snapshot) ∈
                    (applyWorkerEvent b (.result .snapshot nm mime data)).liveUrls ↔
                    (applyWorkerEvent b (.result .snapshot nm mime data)).snapshotUrlRef
                      = some u
                rw [e1, e2]
                constructor
                · intro hin
                  rcases List.mem_cons.mp hin with heq | hin'
                  · rw [Prod.mk.injEq] at heq
                    rw [heq.1]
                  · have h3 : b.snapshotUrlRef = some u :=
                      (hmem u ResultKind.snapshot).mp hin'
                    rw [href] at h3
                    exact Option.noConfusion h3
                · intro hru
                  obtain rfl := Option.some.inj hru
                  exact List.mem_cons_self _ _
            · rw [e1, e4]
              intro e he
              rcases List.mem_cons.mp he with heq | hin'
              · rw [heq]
                exact Nat.lt_succ_self _
              · exact Nat.lt_succ_of_lt (hlt e hin')
            · rw [e1, List.map_cons, List.nodup_cons]
              refine ⟨?_, hnd⟩
              intro hmm
              obtain ⟨e, he, hfst⟩ := List.mem_map.mp hmm
              have hel := hlt e he
              rw [hfst] at hel
              exact Nat.lt_irrefl _ hel
          · have hold_mem : (old, ResultKind.snapshot) ∈ b.liveUrls :=
              (hmem old ResultKind.snapshot).mpr href
            have hold_lt : old < b.urlCounter := hlt _ hold_mem
            have hfl : ((b.urlCounter, ResultKind.snapshot) :: b.liveUrls).filter
                  (fun e => e.1 != old)
                = (b.urlCounter, ResultKind.snapshot) ::
                    b.liveUrls.filter (fun e => e.1 != old) :=
              List.filter_cons_of_pos (by simp [bne_iff_ne]; exact ne_of_gt hold_lt)
            have e1 : (applyWorkerEvent b (.result .snapshot nm mime data)).liveUrls
                = (b.urlCounter, ResultKind.snapshot) ::
                    b.liveUrls.filter (fun e => e.1 != old) := by
              simp only [applyWorkerEvent, revokeObjectURL, href, ← hfl]
            have e2 : (applyWorkerEvent b (.result .snapshot nm mime data)).snapshotUrlRef
                = some b.urlCounter := by
              simp [applyWorkerEvent, revokeObjectURL, href]
            have e3 : (applyWorkerEvent b (.result .snapshot nm mime data)).previewUrlRef
                = b.previewUrlRef := by
              simp [applyWorkerEvent, revokeObjectURL, href]
            have e4 : (applyWorkerEvent b (.result .snapshot nm mime data)).urlCounter
                = b.urlCounter + 1 := by
              simp [applyWorkerEvent, revokeObjectURL, href]
            unfold BridgeInv
            refine ⟨?_, ?_, ?_⟩
            · intro u k
              cases k
              · show (u, ResultKind.preview) ∈
                    (applyWorkerEvent b (.result .snapshot nm mime data)).liveUrls ↔
                    (applyWorkerEvent b (.result .snapshot nm mime data)).previewUrlRef
                      = some u
                rw [e1, e3]
                constructor
                · intro hin
                  rcases List.mem_cons.mp hin with heq | hin'
                  · rw [Prod.mk.injEq] at heq
                    exact ResultKind.noConfusion heq.2
                  · rw [List.mem_filter] at hin'
                    exact (hmem u ResultKind.preview).mp hin'.1
                · intro hru
                  have hl' : (u, ResultKind.preview) ∈ b.liveUrls :=
                    (hmem u ResultKind.preview).mpr hru
                  apply List.mem_cons_of_mem
                  rw [List.mem_filter]
                  refine ⟨hl', ?_⟩
                  simp only [bne_iff_ne]
                  intro huo
                  subst huo
                  have heqp : (u, ResultKind.preview) = (u, ResultKind.snapshot) :=
                    List.inj_on_of_nodup_map hnd hl' hold_mem rfl
                  exact ResultKind.noConfusion (congrArg Prod.snd heqp)
              · show (u, ResultKind.snapshot) ∈
                    (applyWorkerEvent b (.result .snapshot nm mime data)).liveUrls ↔
                    (applyWorkerEvent b (.result .snapshot nm mime data)).snapshotUrlRef
                      = some u
                rw [e1, e2]
                constructor
                · intro hin
                  rcases List.mem_cons.mp hin with heq | hin'
                  · rw [Prod.mk.injEq] at heq
                    rw [heq.1]
                  · rw [List.mem_filter] at hin'
                    obtain ⟨hl', hne⟩ := hin'
                    have h3 : b.snapshotUrlRef = some u :=
                      (hmem u ResultKind.snapshot).mp hl'
                    rw [href] at h3
                    have huo : u = old := (Option.some.inj h3).symm
                    simp [bne_iff_ne] at hne
                    exact absurd huo hne
                · intro hru
                  obtain rfl := Option.some.inj hru
                  exact List.mem_cons_self _ _
            · rw [e1, e4]
              intro e he
              rcases List.mem_cons.mp he with heq | hin'
              · rw [heq]
                exact Nat.lt_succ_self _
              · rw [List.mem_filter] at hin'
                exact Nat.lt_succ_of_lt (hlt e hin'.1)
            · rw [e1, List.map_cons, List.nodup_cons]
              constructor
              · intro hmm
                obtain ⟨e, he, hfst⟩ := List.mem_map.mp hmm
                rw [List.mem_filter] at he
                have hel := hlt e he.1
                rw [hfst] at hel
                exact Nat.lt_irrefl _ hel
              · exact List.Nodup.sublist
                  ((List.filter_sublist b.liveUrls).map Prod.fst) hnd

/-- Helper: every state reachable by a stream of worker events from
mount satisfies the bridge invariant. -/
theorem bridgeInv_run (evs : List WorkerEvent) :
    BridgeInv (runWorkerEvents evs) := by
  have main : ∀ (l : List WorkerEvent) (b : BridgeState), BridgeInv b →
      BridgeInv (l.foldl applyWorkerEvent b) := by
    intro l
    induction l with
    | nil => intro b h; simpa using h
    | cons ev t ih =>
        intro b h
        rw [List.foldl_cons]
        exact ih _ (bridgeInv_step b ev h)
  have hinit : BridgeInv initialBridgeState := by
    unfold BridgeInv
    refine ⟨fun u k => ?_, by simp [initialBridgeState], by simp [initialBridgeState]⟩
    cases k <;> simp [initialBridgeState, urlRefOf]
  exact main evs initialBridgeState hinit

/-- C3: at every observable point (between event-handler turns) at most
one live object URL of each kind exists; and when a result of kind k
arrives while a reference of kind k is held, the handler that mints the
new URL revokes the old one within the same atomic turn — after it runs
the old URL is no longer live at all, and each kind again has at most
one live URL. -/
theorem result_reference_replacement (evs : List WorkerEvent) :
    (∀ k, (liveOfKind (runWorkerEvents evs) k).length ≤ 1) ∧
    (∀ (k : ResultKind) (old : Url) (nm mime : String) (data : BinaryData),
      urlRefOf (runWorkerEvents evs) k = some old →
        old ∉ (applyWorkerEvent (runWorkerEvents evs)
            (.result k nm mime data)).liveUrls.map Prod.fst ∧
        ∀ k', (liveOfKind (applyWorkerEvent (runWorkerEvents evs)
            (.result k nm mime data)) k').length ≤ 1) := by
  have hinv := bridgeInv_run evs
  constructor
  · exact fun k => liveOfKind_length_le_one _ hinv k
  · intro k old nm mime data href
    constructor
    · have e1 : (applyWorkerEvent (runWorkerEvents evs)
            (.result k nm mime data)).liveUrls
          = (((runWorkerEvents evs).urlCounter, k) ::
              (runWorkerEvents evs).liveUrls).filter (fun e => e.1 != old) := by
        cases k
        · have href' : (runWorkerEvents evs).previewUrlRef = some old := href
          simp [applyWorkerEvent, revokeObjectURL, href']
        · have href' : (runWorkerEvents evs).snapshotUrlRef = some old := href
          simp [applyWorkerEvent, revokeObjectURL, href']
      rw [e1]
      intro hmm
      obtain ⟨e, he, hfst⟩ := List.mem_map.mp hmm
      rw [List.mem_filter] at he
      have hne := he.2
      simp only [bne_iff_ne] at hne
      exact hne hfst
    · exact fun k' => liveOfKind_length_le_one _ (bridgeInv_step _ _ hinv) k'

/-- C3 witness: after one preview result the hook holds URL 0; a second
preview result revokes it (0 is no longer live) and exactly one live
preview URL remains. -/
theorem result_reference_replacement_witness :
    urlRefOf (runWorkerEvents [.result .preview "preview.mp4" "video/mp4" []])
        .preview = some 0 ∧
    0 ∉ (applyWorkerEvent
        (runWorkerEvents [.result .preview "preview.mp4" "video/mp4" []])
        (.result .preview "preview.mp4" "video/mp4" [])).liveUrls.map Prod.fst ∧
    (liveOfKind (applyWorkerEvent
        (runWorkerEvents [.result .preview "preview.mp4" "video/mp4" []])
        (.result .preview "preview.mp4" "video/mp4" [])) .preview).length ≤ 1 :=
  ⟨rfl,
   ((result_reference_replacement
      [.result .preview "preview.mp4" "video/mp4" []]).2
      .preview 0 "preview.mp4" "video/mp4" [] rfl).1,
   ((result_reference_replacement
      [.result .preview "preview.mp4" "video/mp4" []]).2
      .preview 0 "preview.mp4" "video/mp4" [] rfl).2 .preview⟩

end FfmpegMinio
